import Mathlib

/-!
Verification development for the gravity sandbox (src/src/main.c).

The C program is a raylib N-body toy: a list of `Body` records advanced by a
brute-force O(n²) force accumulation with 8 substeps per frame, a curvature
field `GetSpacetimeCurve` for visualization, a drag-gesture planet builder and
a mass slider.  The physics uses 32-bit floats; this embedding idealizes the
arithmetic to exact real arithmetic (ℝ), keeping the control flow, operation
order and constants of the source.  Raymath's `Vector3Normalize` guards a
zero-length vector by substituting length 1, which coincides with Lean's
division-by-zero convention on the zero vector; the guard is kept explicitly.
-/

set_option linter.unusedVariables false

namespace Gravity

/-- Raylib `Vector3`, with exact real components. -/
@[ext] structure Vec3 where
  x : ℝ
  y : ℝ
  z : ℝ

namespace Vec3

/-- Raymath `Vector3Add`. -/
def add (a b : Vec3) : Vec3 := ⟨a.x + b.x, a.y + b.y, a.z + b.z⟩

/-- Raymath `Vector3Subtract`. -/
def sub (a b : Vec3) : Vec3 := ⟨a.x - b.x, a.y - b.y, a.z - b.z⟩

/-- Componentwise negation (used only in proofs about opposite forces). -/
def neg (a : Vec3) : Vec3 := ⟨-a.x, -a.y, -a.z⟩

/-- Raymath `Vector3Scale`. -/
def scale (v : Vec3) (s : ℝ) : Vec3 := ⟨v.x * s, v.y * s, v.z * s⟩

/-- Raymath `Vector3LengthSqr`. -/
def lengthSqr (v : Vec3) : ℝ := v.x * v.x + v.y * v.y + v.z * v.z

/-- Raymath `Vector3Length`. -/
noncomputable def length (v : Vec3) : ℝ := Real.sqrt v.lengthSqr

/-- Raymath `Vector3Normalize`: scales by the reciprocal length, substituting
length 1 when the length is zero (the raymath guard). -/
noncomputable def normalize (v : Vec3) : Vec3 :=
  let l := if v.length = 0 then 1 else v.length
  v.scale (1 / l)

end Vec3

instance : Zero Vec3 := ⟨⟨0, 0, 0⟩⟩

instance : Add Vec3 := ⟨Vec3.add⟩

instance : Neg Vec3 := ⟨Vec3.neg⟩

@[simp] theorem Vec3.zero_x : (0 : Vec3).x = 0 := rfl

@[simp] theorem Vec3.zero_y : (0 : Vec3).y = 0 := rfl

@[simp] theorem Vec3.zero_z : (0 : Vec3).z = 0 := rfl

@[simp] theorem Vec3.add_x (a b : Vec3) : (a + b).x = a.x + b.x := rfl

@[simp] theorem Vec3.add_y (a b : Vec3) : (a + b).y = a.y + b.y := rfl

@[simp] theorem Vec3.add_z (a b : Vec3) : (a + b).z = a.z + b.z := rfl

@[simp] theorem Vec3.neg_x (a : Vec3) : (-a).x = -a.x := rfl

@[simp] theorem Vec3.neg_y (a : Vec3) : (-a).y = -a.y := rfl

@[simp] theorem Vec3.neg_z (a : Vec3) : (-a).z = -a.z := rfl

@[simp] theorem Vec3.add_eq (a b : Vec3) : Vec3.add a b = a + b := rfl

@[simp] theorem Vec3.neg_eq (a : Vec3) : Vec3.neg a = -a := rfl

instance : AddCommGroup Vec3 where
  add_assoc a b c := by ext <;> simp <;> ring
  zero_add a := by ext <;> simp
  add_zero a := by ext <;> simp
  add_comm a b := by ext <;> simp <;> ring
  neg_add_cancel a := by ext <;> simp
  nsmul := nsmulRec
  zsmul := zsmulRec

@[simp] theorem Vec3.scale_x (v : Vec3) (s : ℝ) : (v.scale s).x = v.x * s := rfl

@[simp] theorem Vec3.scale_y (v : Vec3) (s : ℝ) : (v.scale s).y = v.y * s := rfl

@[simp] theorem Vec3.scale_z (v : Vec3) (s : ℝ) : (v.scale s).z = v.z * s := rfl

/-- Raylib `Color`, reduced to the palette names the program uses; only the
classification (RED vs WHITE for built planets) matters to the claims. -/
inductive BodyColor where
  | gold
  | skyblue
  | red
  | white
  deriving DecidableEq, Inhabited

/-- The C `struct Body`. -/
structure Body where
  position : Vec3
  velocity : Vec3
  mass : ℝ
  radius : ℝ
  color : BodyColor
  isFixed : Bool

instance : Inhabited Body := ⟨⟨0, 0, 0, 0, default, false⟩⟩

/-- The C `struct PlanetBuilder`. -/
structure PlanetBuilder where
  active : Bool
  startPos : Vec3
  endPos : Vec3

/-- `const float G = 500.0f`. -/
def G : ℝ := 500

/-- `const float BASE_DT = 0.0005f`. -/
def BASE_DT : ℝ := 0.0005

/-- `const int SUBSTEPS = 8`. -/
def SUBSTEPS : ℕ := 8

/-- `GetSpacetimeCurve` (main.c lines 32–42): starts at −15 and subtracts, for
each body of mass at least 50, a depression term capped at 40. -/
noncomputable def GetSpacetimeCurve (x z : ℝ) (bodies : List Body) : ℝ :=
  bodies.foldl
    (fun y b =>
      if b.mass < 50 then y
      else
        let distSq := (x - b.position.x) * (x - b.position.x) +
          (z - b.position.z) * (z - b.position.z)
        let depression := b.mass * 0.5 / (distSq + 60)
        let depression := if depression > 40 then 40 else depression
        y - depression)
    (-15)

/-- `GetMouseOnPlane` (main.c lines 44–52), with the externally produced mouse
ray passed in as `rayPosition`/`rayDirection`: intersects the ray with the
y = 0 plane, returning the zero vector for a near-horizontal or backward ray. -/
noncomputable def GetMouseOnPlane (rayPosition rayDirection : Vec3) : Vec3 :=
  if |rayDirection.y| < 0.001 then ⟨0, 0, 0⟩
  else
    let t := -rayPosition.y / rayDirection.y
    if t < 0 then ⟨0, 0, 0⟩
    else Vec3.add rayPosition (rayDirection.scale t)

/-- `diff = position[j] - position[i]` of the force loop (main.c line 173). -/
def forceDiff (bi bj : Body) : Vec3 := Vec3.sub bj.position bi.position

/-- `distSq` of the force loop (main.c line 174). -/
def forceDistSq (bi bj : Body) : ℝ := (forceDiff bi bj).lengthSqr

/-- `dist = sqrt(distSq)` of the force loop (main.c line 175). -/
noncomputable def forceDist (bi bj : Body) : ℝ := Real.sqrt (forceDistSq bi bj)

/-- The clamped `dist` after main.c line 176: at least `radius[i] + radius[j]`. -/
noncomputable def clampedDist (bi bj : Body) : ℝ :=
  if forceDist bi bj < bi.radius + bj.radius then bi.radius + bj.radius
  else forceDist bi bj

/-- `force = (G * mass[i] * mass[j]) / distSq` (main.c line 177): the divisor
is the unclamped `distSq`. -/
noncomputable def forceMag (bi bj : Body) : ℝ :=
  G * bi.mass * bj.mass / forceDistSq bi bj

/-- One inner-loop contribution of the force accumulation (main.c lines
173–178), shadowed dead `dist` clamp included. -/
noncomputable def pairForce (bi bj : Body) : Vec3 :=
  let diff := Vec3.sub bj.position bi.position
  let distSq := diff.lengthSqr
  let dist := Real.sqrt distSq
  let dist := if dist < bi.radius + bj.radius then bi.radius + bj.radius else dist
  let force := G * bi.mass * bj.mass / distSq
  (Vec3.normalize diff).scale force

/-- The same contribution with the clamp line (main.c line 176) removed. -/
noncomputable def pairForceNoClamp (bi bj : Body) : Vec3 :=
  let diff := Vec3.sub bj.position bi.position
  let distSq := diff.lengthSqr
  let dist := Real.sqrt distSq
  let force := G * bi.mass * bj.mass / distSq
  (Vec3.normalize diff).scale force

/-- `totalForce` accumulated over the inner `j` loop (main.c lines 170–179),
parametrized by the per-pair contribution so the clamped and clamp-free
variants share one body of code. -/
noncomputable def totalForce (pf : Body → Body → Vec3) (bodies : List Body)
    (i : ℕ) (bi : Body) : Vec3 :=
  (List.range bodies.length).foldl
    (fun acc j => if j = i then acc else Vec3.add acc (pf bi (bodies.getD j default)))
    ⟨0, 0, 0⟩

/-- One iteration of the outer `i` loop of the velocity update (main.c lines
168–181): skips fixed bodies, otherwise adds `(totalForce/mass)*dt` to the
velocity in place.  The evolving list is read for the force computation,
exactly as the C loop reads the `bodies` vector it is mutating. -/
noncomputable def velStep (pf : Body → Body → Vec3) (dt : ℝ) (bs : List Body)
    (i : ℕ) : List Body :=
  match bs[i]? with
  | none => bs
  | some bi =>
    if bi.isFixed then bs
    else bs.set i { bi with
      velocity := Vec3.add bi.velocity (((totalForce pf bs i bi).scale (1 / bi.mass)).scale dt) }

/-- The whole velocity loop of one substep (main.c lines 168–181). -/
noncomputable def velocityPass (pf : Body → Body → Vec3) (bs : List Body)
    (dt : ℝ) : List Body :=
  (List.range bs.length).foldl (velStep pf dt) bs

/-- The position loop of one substep (main.c lines 182–184). -/
def positionPass (bs : List Body) (dt : ℝ) : List Body :=
  bs.map fun b =>
    if b.isFixed then b
    else { b with position := Vec3.add b.position (b.velocity.scale dt) }

/-- One substep (main.c lines 167–185): the velocity loop, then the position
loop, parametrized by the per-pair force. -/
noncomputable def substepWith (pf : Body → Body → Vec3) (bs : List Body)
    (dt : ℝ) : List Body :=
  positionPass (velocityPass pf bs dt) dt

/-- One substep of the program as written (clamp line included). -/
noncomputable def substep (bs : List Body) (dt : ℝ) : List Body :=
  substepWith pairForce bs dt

/-- One substep with the dead clamp line removed. -/
noncomputable def substepNoClamp (bs : List Body) (dt : ℝ) : List Body :=
  substepWith pairForceNoClamp bs dt

/-- `n` substeps in sequence (the C loop runs `SUBSTEPS` of them per frame). -/
noncomputable def substepIter (dt : ℝ) : ℕ → List Body → List Body
  | 0, bs => bs
  | n + 1, bs => substepIter dt n (substep bs dt)

/-- The whole physics block of one unpaused frame (main.c lines 165–186):
`dt = BASE_DT * timeSpeed`, then `SUBSTEPS` substeps. -/
noncomputable def physicsFrame (timeSpeed : ℝ) (bs : List Body) : List Body :=
  substepIter (BASE_DT * timeSpeed) SUBSTEPS bs

/-- The velocity update of body `i` described functionally: forces are read
off the original list `bs`, positions and masses untouched.  Equivalence with
the in-place loop is proved below (`velocityPass_eq_spec`). -/
noncomputable def specUpd (bs : List Body) (dt : ℝ) (i : ℕ) : Body :=
  let b := bs.getD i default
  if b.isFixed then b
  else { b with
    velocity := Vec3.add b.velocity (((totalForce pairForce bs i b).scale (1 / b.mass)).scale dt) }

/-- The velocity pass as a pure two-phase description: every body updated from
the same frozen snapshot `bs`. -/
noncomputable def velocityPassSpec (bs : List Body) (dt : ℝ) : List Body :=
  (List.range bs.length).map (specUpd bs dt)

/-- The body built on gesture release (main.c lines 147–158) from the start
point, the drag vector `diff` and the selected mass. -/
noncomputable def builtBody (startPos diff : Vec3) (newPlanetMass : ℝ) : Body :=
  let radius := Real.sqrt newPlanetMass / 4
  let radius := if radius < 1 then 1 else radius
  { position := startPos
    velocity := diff.scale 5
    mass := newPlanetMass
    radius := radius
    color := if newPlanetMass > 1000 then .red else .white
    isFixed := false }

/-- Gesture release (main.c lines 143–161): appends a body when the drag is
longer than 2, and deactivates the builder either way. -/
noncomputable def releaseGesture (builder : PlanetBuilder) (bodies : List Body)
    (newPlanetMass : ℝ) : List Body × PlanetBuilder :=
  let diff := Vec3.sub builder.endPos builder.startPos
  let bodies :=
    if Vec3.length diff > 2 then
      bodies ++ [builtBody builder.startPos diff newPlanetMass]
    else bodies
  (bodies, { builder with active := false })

/-- Gesture press (main.c lines 136–139): activates the builder and records
the projected point as the start position, whatever that point is. -/
def pressGesture (builder : PlanetBuilder) (mousePos3D : Vec3) : PlanetBuilder :=
  { builder with active := true, startPos := mousePos3D }

/-- Gesture drag (main.c lines 140–142): records the projected point as the
end position. -/
def dragGesture (builder : PlanetBuilder) (mousePos3D : Vec3) : PlanetBuilder :=
  { builder with endPos := mousePos3D }

/-- The mass slider (main.c lines 232–235): while the button is down on the
top strip right of x = 120, remaps the mouse x to `10 + clickPct * 2000`. -/
noncomputable def sliderUpdate (screenW mouseX mouseY : ℝ) (mouseDown : Bool)
    (newPlanetMass : ℝ) : ℝ :=
  if mouseDown = true ∧ mouseY < 60 ∧ mouseX > 120 then
    10 + (mouseX - 120) / (screenW - 140) * 2000
  else newPlanetMass

/-- Total momentum, the observable of the momentum-conservation property:
the sum over the list of `velocity * mass`. -/
noncomputable def momentum (bs : List Body) : Vec3 :=
  (bs.map fun b => b.velocity.scale b.mass).sum

/-! ### Vector algebra helpers -/

theorem Vec3.scale_zero (v : Vec3) : v.scale 0 = 0 := by ext <;> simp

theorem Vec3.zero_scale (s : ℝ) : (0 : Vec3).scale s = 0 := by ext <;> simp

theorem Vec3.add_scale (a b : Vec3) (s : ℝ) :
    (a + b).scale s = a.scale s + b.scale s := by ext <;> simp <;> ring

theorem Vec3.scale_scale (v : Vec3) (s t : ℝ) :
    (v.scale s).scale t = v.scale (s * t) := by ext <;> simp <;> ring

theorem Vec3.neg_scale (v : Vec3) (s : ℝ) : (-v).scale s = -(v.scale s) := by
  ext <;> simp

theorem Vec3.lengthSqr_neg (v : Vec3) : (-v).lengthSqr = v.lengthSqr := by
  simp [Vec3.lengthSqr]

theorem Vec3.length_neg (v : Vec3) : (-v).length = v.length := by
  simp [Vec3.length, Vec3.lengthSqr_neg]

theorem Vec3.normalize_neg (v : Vec3) : Vec3.normalize (-v) = -(Vec3.normalize v) := by
  simp only [Vec3.normalize, Vec3.length_neg, Vec3.neg_scale]

theorem Vec3.sub_swap (a b : Vec3) : Vec3.sub a b = -(Vec3.sub b a) := by
  ext <;> simp [Vec3.sub]

theorem Vec3.sum_scale {ι : Type} (s : Finset ι) (f : ι → Vec3) (c : ℝ) :
    (∑ i ∈ s, f i).scale c = ∑ i ∈ s, (f i).scale c := by
  classical
  induction s using Finset.induction with
  | empty => simpa using Vec3.zero_scale c
  | insert h ih =>
    rw [Finset.sum_insert h, Finset.sum_insert h, Vec3.add_scale, ih]

/-! ### Sum-shape helpers for the accumulation loops -/

theorem foldl_add_eq_sum {M : Type} [AddCommMonoid M] (f : ℕ → M) :
    ∀ (l : List ℕ) (init : M),
      l.foldl (fun acc j => acc + f j) init = init + (l.map f).sum
  | [], init => by simp
  | j :: l, init => by
    rw [List.foldl_cons, foldl_add_eq_sum f l (init + f j), List.map_cons,
      List.sum_cons, add_assoc]

theorem range_map_sum {M : Type} [AddCommMonoid M] (n : ℕ) (g : ℕ → M) :
    ((List.range n).map g).sum = ∑ i ∈ Finset.range n, g i := by
  induction n with
  | zero => simp
  | succ n ih => rw [List.range_succ, Finset.sum_range_succ, ← ih]; simp

theorem map_sum_eq_range_sum {M : Type} [AddCommMonoid M] (f : Body → M) :
    ∀ bs : List Body,
      (bs.map f).sum = ∑ i ∈ Finset.range bs.length, f (bs.getD i default)
  | [] => by simp
  | b :: bs => by
    rw [List.map_cons, List.sum_cons, List.length_cons, Finset.sum_range_succ',
      map_sum_eq_range_sum f bs]
    simp [add_comm]

/-- The inner force loop as a `Finset` sum over the body indices, the skipped
diagonal contributing zero. -/
theorem totalForce_eq_sum (pf : Body → Body → Vec3) (bodies : List Body)
    (i : ℕ) (bi : Body) :
    totalForce pf bodies i bi =
      ∑ j ∈ Finset.range bodies.length,
        if j = i then 0 else pf bi (bodies.getD j default) := by
  have hfun : (fun (acc : Vec3) j =>
      if j = i then acc else Vec3.add acc (pf bi (bodies.getD j default))) =
      fun acc j => acc + (if j = i then 0 else pf bi (bodies.getD j default)) := by
    funext acc j
    by_cases h : j = i <;> simp [h]
  rw [totalForce, hfun, foldl_add_eq_sum, range_map_sum]
  show (0 : Vec3) + _ = _
  rw [zero_add]

/-! ### Per-pair force lemmas -/

theorem pairForce_def (bi bj : Body) :
    pairForce bi bj = (Vec3.normalize (forceDiff bi bj)).scale (forceMag bi bj) := rfl

/-- Newton's third law at the level of one loop contribution: the roles of the
two bodies swapped negate the contribution (the dead clamp plays no part). -/
theorem pairForce_antisymm (a b : Body) : pairForce a b = -(pairForce b a) := by
  simp only [pairForce]
  rw [Vec3.sub_swap b.position a.position, Vec3.normalize_neg,
    Vec3.lengthSqr_neg, Vec3.neg_scale]
  ring_nf

/-- A body of zero mass exerts and feels no force through the formula: the
numerator `G * mass[i] * mass[j]` vanishes. -/
theorem pairForce_mass_zero (a b : Body) (h : a.mass = 0) : pairForce a b = 0 := by
  simp only [pairForce, h]
  rw [show G * 0 * b.mass = 0 by ring, zero_div, Vec3.scale_zero]

/-- `pairForce` reads only position, mass and radius of its second argument. -/
theorem pairForce_congr_right (bi : Body) {a b : Body}
    (hp : a.position = b.position) (hm : a.mass = b.mass)
    (hr : a.radius = b.radius) : pairForce bi a = pairForce bi b := by
  simp only [pairForce, hp, hm, hr]

/-! ### The in-place velocity loop equals the frozen-snapshot description -/

theorem velStep_of_none (pf : Body → Body → Vec3) (dt : ℝ) (bs : List Body)
    (i : ℕ) (h : bs[i]? = none) : velStep pf dt bs i = bs := by
  simp [velStep, h]

theorem velStep_of_fixed (pf : Body → Body → Vec3) (dt : ℝ) (bs : List Body)
    (i : ℕ) (bi : Body) (h : bs[i]? = some bi) (hf : bi.isFixed = true) :
    velStep pf dt bs i = bs := by
  simp [velStep, h, hf]

theorem velStep_of_not_fixed (pf : Body → Body → Vec3) (dt : ℝ) (bs : List Body)
    (i : ℕ) (bi : Body) (h : bs[i]? = some bi) (hf : bi.isFixed = false) :
    velStep pf dt bs i = bs.set i { bi with
      velocity := Vec3.add bi.velocity
        (((totalForce pf bs i bi).scale (1 / bi.mass)).scale dt) } := by
  simp [velStep, h, hf]

theorem velStep_length (pf : Body → Body → Vec3) (dt : ℝ) (bs : List Body)
    (i : ℕ) : (velStep pf dt bs i).length = bs.length := by
  rcases h : bs[i]? with _ | bi
  · rw [velStep_of_none pf dt bs i h]
  · rcases hf : bi.isFixed with _ | _
    · rw [velStep_of_not_fixed pf dt bs i bi h hf, List.length_set]
    · rw [velStep_of_fixed pf dt bs i bi h hf]

theorem foldl_velStep_length (pf : Body → Body → Vec3) (dt : ℝ) :
    ∀ (l : List ℕ) (bs : List Body), (l.foldl (velStep pf dt) bs).length = bs.length
  | [], bs => rfl
  | j :: l, bs => by
    rw [List.foldl_cons, foldl_velStep_length pf dt l (velStep pf dt bs j),
      velStep_length]

theorem specUpd_of_fixed (bs : List Body) (dt : ℝ) (i : ℕ)
    (h : (bs.getD i default).isFixed = true) :
    specUpd bs dt i = bs.getD i default := by
  simp only [specUpd]
  rw [h, if_pos rfl]

theorem specUpd_of_not_fixed (bs : List Body) (dt : ℝ) (i : ℕ)
    (h : (bs.getD i default).isFixed = false) :
    specUpd bs dt i = { bs.getD i default with
      velocity := Vec3.add (bs.getD i default).velocity
        (((totalForce pairForce bs i (bs.getD i default)).scale
          (1 / (bs.getD i default).mass)).scale dt) } := by
  simp only [specUpd]
  rw [h, if_neg Bool.false_ne_true]

theorem specUpd_position (bs : List Body) (dt : ℝ) (i : ℕ) :
    (specUpd bs dt i).position = (bs.getD i default).position := by
  simp only [specUpd]
  split <;> rfl

theorem specUpd_mass (bs : List Body) (dt : ℝ) (i : ℕ) :
    (specUpd bs dt i).mass = (bs.getD i default).mass := by
  simp only [specUpd]
  split <;> rfl

theorem specUpd_radius (bs : List Body) (dt : ℝ) (i : ℕ) :
    (specUpd bs dt i).radius = (bs.getD i default).radius := by
  simp only [specUpd]
  split <;> rfl

/-- The accumulated force is unchanged when the body list is replaced by one
of the same length whose entries agree on position, mass and radius: the force
computation never reads a velocity. -/
theorem totalForce_pairForce_congr (bs bs2 : List Body) (i : ℕ) (bi : Body)
    (hlen : bs2.length = bs.length)
    (h : ∀ j, j < bs.length →
      (bs2.getD j default).position = (bs.getD j default).position ∧
      (bs2.getD j default).mass = (bs.getD j default).mass ∧
      (bs2.getD j default).radius = (bs.getD j default).radius) :
    totalForce pairForce bs2 i bi = totalForce pairForce bs i bi := by
  rw [totalForce_eq_sum, totalForce_eq_sum, hlen]
  refine Finset.sum_congr rfl ?_
  intro j hj
  rw [Finset.mem_range] at hj
  by_cases hji : j = i
  · simp [hji]
  · simp only [if_neg hji]
    exact pairForce_congr_right bi (h j hj).1 (h j hj).2.1 (h j hj).2.2

/-- Characterization of the in-place velocity loop after its first `k`
iterations: the entries below `k` are exactly the frozen-snapshot updates, the
rest are untouched.  The heart of the argument is that the loop mutates only
velocities while the force computation reads only positions, masses and radii. -/
theorem velocityPass_aux (dt : ℝ) (bs : List Body) :
    ∀ (k j : ℕ),
      ((List.range k).foldl (velStep pairForce dt) bs)[j]? =
        if j < k ∧ j < bs.length then some (specUpd bs dt j) else bs[j]?
  | 0, j => by simp
  | k + 1, j => by
    rw [List.range_succ, List.foldl_append, List.foldl_cons, List.foldl_nil]
    set L := (List.range k).foldl (velStep pairForce dt) bs with hL
    have hIH : ∀ j', L[j']? =
        if j' < k ∧ j' < bs.length then some (specUpd bs dt j') else bs[j']? :=
      fun j' => velocityPass_aux dt bs k j'
    have hLlen : L.length = bs.length := foldl_velStep_length pairForce dt _ bs
    have hLk : L[k]? = bs[k]? := by rw [hIH k]; simp
    by_cases hk : k < bs.length
    · have hgetD : bs.getD k default = bs[k] := List.getD_eq_getElem bs default hk
      have hLkb : L[k]? = some (bs.getD k default) := by
        rw [hLk, List.getElem?_eq_getElem hk, hgetD]
      rcases hf : (bs.getD k default).isFixed with _ | _
      · -- the body at k is not fixed: this iteration sets its velocity
        rw [velStep_of_not_fixed pairForce dt L k (bs.getD k default) hLkb hf]
        have hshape : ∀ j', j' < bs.length →
            (L.getD j' default).position = (bs.getD j' default).position ∧
            (L.getD j' default).mass = (bs.getD j' default).mass ∧
            (L.getD j' default).radius = (bs.getD j' default).radius := by
          intro j' hj'
          rw [List.getD_eq_getElem?_getD, hIH j']
          by_cases hj'k : j' < k
          · simp only [hj'k, hj', and_self, if_true, Option.getD_some]
            exact ⟨specUpd_position bs dt j', specUpd_mass bs dt j',
              specUpd_radius bs dt j'⟩
          · simp only [hj'k, false_and, if_false]
            rw [← List.getD_eq_getElem?_getD]
            exact ⟨rfl, rfl, rfl⟩
        have hforce : totalForce pairForce L k (bs.getD k default) =
            totalForce pairForce bs k (bs.getD k default) :=
          totalForce_pairForce_congr bs L k (bs.getD k default) hLlen hshape
        rw [hforce, ← specUpd_of_not_fixed bs dt k hf]
        by_cases hjk : j = k
        · subst hjk
          rw [List.getElem?_set_self (by rw [hLlen]; exact hk)]
          simp [hk]
        · rw [List.getElem?_set_ne (fun hc => hjk hc.symm), hIH j]
          have hiff : (j < k ∧ j < bs.length) ↔ (j < k + 1 ∧ j < bs.length) := by
            omega
          rw [if_congr hiff rfl rfl]
      · -- the body at k is fixed: this iteration leaves the list unchanged
        rw [velStep_of_fixed pairForce dt L k (bs.getD k default) hLkb hf]
        by_cases hjk : j = k
        · subst hjk
          rw [hLk, List.getElem?_eq_getElem hk]
          simp only [Nat.lt_succ_self, hk, and_self, if_true]
          rw [specUpd_of_fixed bs dt j hf, hgetD]
        · rw [hIH j]
          have hiff : (j < k ∧ j < bs.length) ↔ (j < k + 1 ∧ j < bs.length) := by
            omega
          rw [if_congr hiff rfl rfl]
    · -- k is past the end: the iteration is a no-op
      have hnone : L[k]? = none := by
        rw [hLk]
        exact List.getElem?_eq_none (by omega)
      rw [velStep_of_none pairForce dt L k hnone, hIH j]
      have hiff : (j < k ∧ j < bs.length) ↔ (j < k + 1 ∧ j < bs.length) := by
        omega
      rw [if_congr hiff rfl rfl]

/-- The in-place velocity loop of the C program computes, body for body, the
frozen-snapshot update: forces come from the positions as they were at the
start of the substep, never from a body already advanced this substep. -/
theorem velocityPass_eq_spec (bs : List Body) (dt : ℝ) :
    velocityPass pairForce bs dt = velocityPassSpec bs dt := by
  apply List.ext_getElem?
  intro j
  rw [velocityPass, velocityPass_aux dt bs bs.length j, velocityPassSpec,
    List.getElem?_map]
  by_cases hj : j < bs.length
  · rw [List.getElem?_range hj]
    simp [hj]
  · have h1 : (List.range bs.length)[j]? = none :=
      List.getElem?_eq_none (by simpa using hj)
    rw [h1]
    simp only [Option.map_none', hj, and_false, if_false]
    exact List.getElem?_eq_none (by omega)

/-! ### Momentum bookkeeping -/

theorem vec3_eq_zero_of_eq_neg (v : Vec3) (h : v = -v) : v = 0 := by
  have hx := congrArg Vec3.x h
  have hy := congrArg Vec3.y h
  have hz := congrArg Vec3.z h
  simp only [Vec3.neg_x, Vec3.neg_y, Vec3.neg_z] at hx hy hz
  ext <;> simp <;> linarith

/-- A doubly indexed sum of an antisymmetric vector family vanishes. -/
theorem sum_sum_antisym {ι : Type} (s : Finset ι) (g : ι → ι → Vec3)
    (hg : ∀ a b, g a b = -g b a) : ∑ a ∈ s, ∑ b ∈ s, g a b = 0 := by
  apply vec3_eq_zero_of_eq_neg
  calc ∑ a ∈ s, ∑ b ∈ s, g a b
      = ∑ b ∈ s, ∑ a ∈ s, g a b := Finset.sum_comm
    _ = ∑ b ∈ s, ∑ a ∈ s, -g b a :=
      Finset.sum_congr rfl fun b _ => Finset.sum_congr rfl fun a _ => hg a b
    _ = -∑ a ∈ s, ∑ b ∈ s, g a b := by
      simp only [Finset.sum_neg_distrib]

theorem totalForce_mass_zero (bs : List Body) (i : ℕ) (bi : Body)
    (h : bi.mass = 0) : totalForce pairForce bs i bi = 0 := by
  rw [totalForce_eq_sum]
  refine Finset.sum_eq_zero fun j _ => ?_
  by_cases hj : j = i
  · simp [hj]
  · simp only [if_neg hj]
    exact pairForce_mass_zero bi _ h

/-- Effect of one velocity update on a body's momentum: exactly `force * dt`
is added, the `1/mass` of the acceleration cancelling against the `mass` of
the momentum (and a zero-mass body feels a zero total force, so the identity
needs no positivity hypothesis). -/
theorem specUpd_momentum (bs : List Body) (dt : ℝ) (i : ℕ)
    (h : (bs.getD i default).isFixed = false) :
    (specUpd bs dt i).velocity.scale (specUpd bs dt i).mass =
      (bs.getD i default).velocity.scale (bs.getD i default).mass +
        (totalForce pairForce bs i (bs.getD i default)).scale dt := by
  rw [specUpd_of_not_fixed bs dt i h]
  show (Vec3.add (bs.getD i default).velocity _).scale (bs.getD i default).mass = _
  rw [Vec3.add_eq, Vec3.add_scale, Vec3.scale_scale, Vec3.scale_scale]
  congr 1
  by_cases hm : (bs.getD i default).mass = 0
  · rw [totalForce_mass_zero bs i _ hm, Vec3.zero_scale, Vec3.zero_scale]
  · congr 1
    rw [show 1 / (bs.getD i default).mass * (dt * (bs.getD i default).mass)
          = dt * (1 / (bs.getD i default).mass * (bs.getD i default).mass) by ring,
      one_div_mul_cancel hm, mul_one]

theorem momentum_positionPass : ∀ (bs : List Body) (dt : ℝ),
    momentum (positionPass bs dt) = momentum bs
  | [], _ => rfl
  | b :: bs, dt => by
    have ih := momentum_positionPass bs dt
    simp only [momentum, positionPass, List.map_cons, List.sum_cons] at ih ⊢
    rw [ih]
    congr 1
    by_cases hb : b.isFixed = true <;> simp [hb]

/-- Momentum is untouched by the frozen-snapshot velocity pass when no body is
fixed: summing the per-body `force * dt` increments pairs each contribution
with its equal-and-opposite partner. -/
theorem momentum_velocityPassSpec (bs : List Body) (dt : ℝ)
    (h : ∀ b ∈ bs, b.isFixed = false) :
    momentum (velocityPassSpec bs dt) = momentum bs := by
  have hfix : ∀ i, i < bs.length → (bs.getD i default).isFixed = false := by
    intro i hi
    apply h
    rw [List.getD_eq_getElem bs default hi]
    exact List.getElem_mem hi
  unfold momentum velocityPassSpec
  rw [List.map_map, range_map_sum, map_sum_eq_range_sum]
  have hsummand : ∀ i ∈ Finset.range bs.length,
      ((fun b => b.velocity.scale b.mass) ∘ specUpd bs dt) i =
        (bs.getD i default).velocity.scale (bs.getD i default).mass +
          (totalForce pairForce bs i (bs.getD i default)).scale dt := by
    intro i hi
    rw [Finset.mem_range] at hi
    exact specUpd_momentum bs dt i (hfix i hi)
  rw [Finset.sum_congr rfl hsummand, Finset.sum_add_distrib]
  have hzero : ∑ i ∈ Finset.range bs.length,
      totalForce pairForce bs i (bs.getD i default) = 0 := by
    have hg : ∀ a b : ℕ,
        (if b = a then 0 else pairForce (bs.getD a default) (bs.getD b default)) =
          -(if a = b then 0 else pairForce (bs.getD b default) (bs.getD a default)) := by
      intro a b
      by_cases hab : a = b
      · simp [hab]
      · rw [if_neg (fun hc => hab hc.symm), if_neg hab]
        exact pairForce_antisymm _ _
    calc ∑ i ∈ Finset.range bs.length, totalForce pairForce bs i (bs.getD i default)
        = ∑ a ∈ Finset.range bs.length, ∑ b ∈ Finset.range bs.length,
            (if b = a then 0 else pairForce (bs.getD a default) (bs.getD b default)) :=
          Finset.sum_congr rfl fun a _ => totalForce_eq_sum pairForce bs a _
      _ = 0 := sum_sum_antisym _ _ hg
  rw [← Vec3.sum_scale, hzero, Vec3.zero_scale, add_zero]

/-! ### Fixed bodies survive a substep untouched -/

theorem substep_fixed_getElem (bs : List Body) (dt : ℝ) (i : ℕ) (b : Body)
    (hb : bs[i]? = some b) (hf : b.isFixed = true) :
    (substep bs dt)[i]? = some b := by
  have hi : i < bs.length := by
    rw [List.getElem?_eq_some] at hb
    exact hb.1
  have hgetD : bs.getD i default = b := by
    rw [List.getD_eq_getElem?_getD, hb]
    rfl
  unfold substep substepWith positionPass
  rw [velocityPass_eq_spec, List.getElem?_map, velocityPassSpec,
    List.getElem?_map, List.getElem?_range hi]
  simp only [Option.map_some']
  rw [specUpd_of_fixed bs dt i (by rw [hgetD]; exact hf), hgetD]
  simp [hf]

theorem substepIter_fixed (dt : ℝ) :
    ∀ (n : ℕ) (bs : List Body) (i : ℕ) (b : Body),
      bs[i]? = some b → b.isFixed = true → (substepIter dt n bs)[i]? = some b
  | 0, _, _, _, hb, _ => hb
  | n + 1, bs, i, b, hb, hf =>
    substepIter_fixed dt n (substep bs dt) i b
      (substep_fixed_getElem bs dt i b hb hf) hf

/-- The substep loop, written as the iterate of the functional two-pass
composition: velocities first from a frozen snapshot, then positions. -/
theorem substepIter_eq_iterate (dt : ℝ) :
    ∀ (n : ℕ) (bs : List Body),
      substepIter dt n bs =
        (fun l => positionPass (velocityPassSpec l dt) dt)^[n] bs
  | 0, _ => rfl
  | n + 1, bs => by
    rw [substepIter, substepIter_eq_iterate dt n (substep bs dt),
      Function.iterate_succ_apply]
    congr 1
    unfold substep substepWith
    rw [velocityPass_eq_spec]

/-! ### Concrete-value helpers -/

theorem sqrt_nine : Real.sqrt 9 = 3 := by
  rw [show (9:ℝ) = 3 ^ 2 by norm_num, Real.sqrt_sq (by norm_num : (0:ℝ) ≤ 3)]

theorem sub_three_zero : Vec3.sub ⟨(3:ℝ), 0, 0⟩ ⟨0, 0, 0⟩ = ⟨3, 0, 0⟩ := by
  ext <;> simp [Vec3.sub]

theorem length_three : Vec3.length (Vec3.sub ⟨(3:ℝ), 0, 0⟩ ⟨0, 0, 0⟩) = 3 := by
  rw [Vec3.length, show Vec3.lengthSqr (Vec3.sub ⟨(3:ℝ), 0, 0⟩ ⟨0, 0, 0⟩) = 9 by
    simp [Vec3.sub, Vec3.lengthSqr]
    norm_num]
  exact sqrt_nine

/-- Releasing a drag from the origin to `(3,0,0)` appends exactly the built
body: the drag length 3 clears the threshold 2. -/
theorem releaseGesture_three (m : ℝ) :
    (releaseGesture ⟨true, ⟨0, 0, 0⟩, ⟨3, 0, 0⟩⟩ [] m).1 =
      [builtBody ⟨0, 0, 0⟩ ⟨3, 0, 0⟩ m] := by
  show (if Vec3.length (Vec3.sub ⟨(3:ℝ), 0, 0⟩ ⟨0, 0, 0⟩) > 2 then
      [] ++ [builtBody ⟨0, 0, 0⟩ (Vec3.sub ⟨3, 0, 0⟩ ⟨0, 0, 0⟩) m]
    else []) = [builtBody ⟨0, 0, 0⟩ ⟨3, 0, 0⟩ m]
  rw [if_pos (by rw [length_three]; norm_num), sub_three_zero, List.nil_append]

/-- The built body's radius, written as the claim writes it. -/
theorem builtBody_radius (s d : Vec3) (m : ℝ) :
    (builtBody s d m).radius = max 1 (Real.sqrt m / 4) := by
  show (if Real.sqrt m / 4 < 1 then 1 else Real.sqrt m / 4) = _
  by_cases hr : Real.sqrt m / 4 < 1
  · rw [if_pos hr, max_eq_left (le_of_lt hr)]
  · rw [if_neg hr, max_eq_right (not_lt.mp hr)]

/-! ### The curvature fold as a subtracted sum -/

/-- One body's contribution to the curvature field, as the spec phrases it:
zero below the mass threshold, otherwise a capped depression. -/
noncomputable def depressionTerm (x z : ℝ) (b : Body) : ℝ :=
  if b.mass < 50 then 0
  else min 40 (b.mass * 0.5 /
    ((x - b.position.x) * (x - b.position.x) +
      (z - b.position.z) * (z - b.position.z) + 60))

theorem foldl_sub_eq (g : Body → ℝ) : ∀ (l : List Body) (c : ℝ),
    l.foldl (fun y b => y - g b) c = c - (l.map g).sum
  | [], c => by simp
  | b :: l, c => by
    rw [List.foldl_cons, foldl_sub_eq g l (c - g b), List.map_cons, List.sum_cons]
    ring

theorem curve_step_eq (x z : ℝ) :
    (fun (y : ℝ) (b : Body) =>
      if b.mass < 50 then y
      else
        let distSq := (x - b.position.x) * (x - b.position.x) +
          (z - b.position.z) * (z - b.position.z)
        let depression := b.mass * 0.5 / (distSq + 60)
        let depression := if depression > 40 then 40 else depression
        y - depression) =
    fun y b => y - depressionTerm x z b := by
  funext y b
  by_cases hm : b.mass < 50
  · simp [hm, depressionTerm]
  · rw [if_neg hm]
    unfold depressionTerm
    rw [if_neg hm]
    dsimp only
    congr 1
    by_cases hd : b.mass * 0.5 /
        ((x - b.position.x) * (x - b.position.x) +
          (z - b.position.z) * (z - b.position.z) + 60) > 40
    · rw [if_pos hd, min_eq_left (le_of_lt hd)]
    · rw [if_neg hd, min_eq_right (not_lt.mp hd)]

theorem GetSpacetimeCurve_eq_sum (x z : ℝ) (bodies : List Body) :
    GetSpacetimeCurve x z bodies = -15 - (bodies.map (depressionTerm x z)).sum := by
  unfold GetSpacetimeCurve
  rw [curve_step_eq x z, foldl_sub_eq]

/-! ### The claims -/

/-- The two seeded bodies of the program preset, placed coincidentally at the
origin for the C1 failing input. -/
def c1a : Body := ⟨⟨0, 0, 0⟩, ⟨0, 0, 0⟩, 5000, 10, .gold, true⟩

def c1b : Body := ⟨⟨0, 0, 0⟩, ⟨0, 0, 310⟩, 100, 3, .skyblue, false⟩

/-- C1: for two bodies at coincident positions the clamped distance is the
positive radius sum, yet the divisor of the force-magnitude formula is the
unclamped squared distance, which is zero — and as the separation shrinks the
magnitude grows past every bound, so the clamp does not make the force at
contact finite or bounded (in the program's float arithmetic the division by
the zero `distSq` yields +inf). -/
theorem C1_unclamped_divisor_zero :
    forceDistSq c1b c1a = 0 ∧
    clampedDist c1b c1a = 13 ∧ (0:ℝ) < 13 ∧
    ∀ M : ℝ, ∃ bj : Body,
      forceDist c1b bj < c1b.radius + bj.radius ∧ M < forceMag c1b bj := by
  have h0 : forceDistSq c1b c1a = 0 := by
    simp [forceDistSq, forceDiff, Vec3.sub, Vec3.lengthSqr, c1a, c1b]
  refine ⟨h0, ?_, by norm_num, ?_⟩
  · unfold clampedDist forceDist
    rw [h0, Real.sqrt_zero, if_pos (by show (0:ℝ) < c1b.radius + c1a.radius; norm_num [c1a, c1b])]
    norm_num [c1a, c1b]
  · intro M
    obtain ⟨n, hn⟩ := exists_nat_gt M
    refine ⟨⟨⟨1 / ((n:ℝ) + 1), 0, 0⟩, ⟨0, 0, 0⟩, 100, 3, .white, false⟩, ?_, ?_⟩
    · have hd1 : (1:ℝ) / ((n:ℝ) + 1) ≤ 1 := by
        rw [div_le_one (by positivity)]
        simp
      have hsq : forceDistSq c1b ⟨⟨1 / ((n:ℝ) + 1), 0, 0⟩, ⟨0, 0, 0⟩, 100, 3, .white, false⟩ =
          (1 / ((n:ℝ) + 1)) * (1 / ((n:ℝ) + 1)) := by
        simp [forceDistSq, forceDiff, Vec3.sub, Vec3.lengthSqr, c1b]
      rw [forceDist, hsq, Real.sqrt_mul_self (by positivity)]
      show 1 / ((n:ℝ) + 1) < c1b.radius + 3
      have : c1b.radius = 3 := rfl
      rw [this]
      linarith
    · have hsq : forceDistSq c1b ⟨⟨1 / ((n:ℝ) + 1), 0, 0⟩, ⟨0, 0, 0⟩, 100, 3, .white, false⟩ =
          (1 / ((n:ℝ) + 1)) * (1 / ((n:ℝ) + 1)) := by
        simp [forceDistSq, forceDiff, Vec3.sub, Vec3.lengthSqr, c1b]
      have hmag : forceMag c1b ⟨⟨1 / ((n:ℝ) + 1), 0, 0⟩, ⟨0, 0, 0⟩, 100, 3, .white, false⟩ =
          5000000 * (((n:ℝ) + 1) * ((n:ℝ) + 1)) := by
        unfold forceMag
        rw [hsq]
        show G * c1b.mass * 100 / _ = _
        have hG : G * c1b.mass * 100 = 5000000 := by norm_num [G, c1b]
        rw [hG]
        rw [div_eq_iff (by positivity)]
        field_simp
      rw [hmag]
      have hn0 : (0:ℝ) ≤ (n:ℝ) := Nat.cast_nonneg n
      nlinarith

/-- C2: with no fixed body, one substep conserves total momentum exactly (in
the exact-arithmetic model), because the two contributions of every pair are
equal and opposite. -/
theorem C2_substep_momentum_conserved (bs : List Body) (dt : ℝ)
    (h : ∀ b ∈ bs, b.isFixed = false) :
    momentum (substep bs dt) = momentum bs ∧
    ∀ a b : Body, pairForce a b = -(pairForce b a) := by
  constructor
  · unfold substep substepWith
    rw [momentum_positionPass, velocityPass_eq_spec,
      momentum_velocityPassSpec bs dt h]
  · exact pairForce_antisymm

def w2a : Body := ⟨⟨0, 0, 0⟩, ⟨0, 0, 0⟩, 100, 3, .white, false⟩

def w2b : Body := ⟨⟨3, 0, 0⟩, ⟨0, 0, 5⟩, 200, 3, .white, false⟩

/-- Witness for C2 at a concrete two-body, no-fixed-body system. -/
theorem C2_witness : momentum (substep [w2a, w2b] 1) = momentum [w2a, w2b] :=
  (C2_substep_momentum_conserved [w2a, w2b] 1 (by
    intro b hb
    simp only [List.mem_cons, List.not_mem_nil, or_false] at hb
    rcases hb with rfl | rfl <;> rfl)).1

/-- C3: a fixed body's list entry (position, velocity and all) is unchanged by
any number of substeps, while its `pairForce` term still appears in the force
accumulated on every other body. -/
theorem C3_fixed_body_invariant (bs : List Body) (dt : ℝ) (n i : ℕ) (b : Body)
    (hb : bs[i]? = some b) (hf : b.isFixed = true) :
    (substepIter dt n bs)[i]? = some b ∧
    ∀ (j : ℕ) (bj : Body), j ≠ i →
      totalForce pairForce bs j bj =
        pairForce bj b +
          ∑ k ∈ (Finset.range bs.length).erase i,
            (if k = j then 0 else pairForce bj (bs.getD k default)) := by
  constructor
  · exact substepIter_fixed dt n bs i b hb hf
  · intro j bj hj
    have hi : i < bs.length := by
      rw [List.getElem?_eq_some] at hb
      exact hb.1
    have hgetD : bs.getD i default = b := by
      rw [List.getD_eq_getElem?_getD, hb]
      rfl
    rw [totalForce_eq_sum,
      ← Finset.add_sum_erase _ _ (Finset.mem_range.mpr hi)]
    congr 1
    rw [if_neg (fun hc => hj hc.symm), hgetD]

def w3a : Body := ⟨⟨0, 0, 0⟩, ⟨0, 0, 0⟩, 5000, 10, .gold, true⟩

def w3b : Body := ⟨⟨50, 0, 0⟩, ⟨0, 0, 310⟩, 100, 3, .skyblue, false⟩

/-- Witness for C3: the seeded fixed star survives a substep verbatim. -/
theorem C3_witness : (substepIter 1 1 [w3a, w3b])[0]? = some w3a :=
  (C3_fixed_body_invariant [w3a, w3b] 1 1 0 w3a rfl rfl).1

/-- C4: a frame is exactly the 8-fold iterate of "update all velocities from a
frozen position snapshot, then update all positions from the new velocities",
with `dt = BASE_DT * timeSpeed`, `BASE_DT = 0.0005` and 8 substeps: position
updates never consume a velocity that was derived from an already-moved
position. -/
theorem C4_velocity_then_position (bs : List Body) (ts : ℝ) :
    physicsFrame ts bs =
      (fun l => positionPass (velocityPassSpec l (BASE_DT * ts)) (BASE_DT * ts))^[SUBSTEPS] bs ∧
    BASE_DT = 0.0005 ∧ SUBSTEPS = 8 :=
  ⟨substepIter_eq_iterate (BASE_DT * ts) SUBSTEPS bs, rfl, rfl⟩

/-- C5: the curvature sampler is `−15` minus the sum, over bodies of mass at
least 50 (lighter bodies contribute exactly zero), of the depression
`min 40 (mass*0.5/(distSq+60))`; with one body the value never drops below
`−15 − 40`, whatever the mass. -/
theorem C5_curvature_formula (x z : ℝ) (bodies : List Body) (b : Body) :
    GetSpacetimeCurve x z bodies = -15 - (bodies.map (depressionTerm x z)).sum ∧
    depressionTerm x z b =
      (if b.mass < 50 then 0
        else min 40 (b.mass * 0.5 /
          ((x - b.position.x) * (x - b.position.x) +
            (z - b.position.z) * (z - b.position.z) + 60))) ∧
    -15 - 40 ≤ GetSpacetimeCurve x z [b] := by
  refine ⟨GetSpacetimeCurve_eq_sum x z bodies, rfl, ?_⟩
  rw [GetSpacetimeCurve_eq_sum x z [b]]
  simp only [List.map_cons, List.map_nil, List.sum_cons, List.sum_nil, add_zero]
  unfold depressionTerm
  by_cases hm : b.mass < 50
  · rw [if_pos hm]
    norm_num
  · rw [if_neg hm]
    have hmin := min_le_left (40:ℝ) (b.mass * 0.5 /
      ((x - b.position.x) * (x - b.position.x) +
        (z - b.position.z) * (z - b.position.z) + 60))
    linarith

/-- C6: a release with drag length at most 2 appends nothing, a longer drag
appends exactly one body with position `startPos`, velocity `diff * 5`, the
selected mass, radius `max 1 (sqrt mass / 4)` and `isFixed = false`; the
builder is deactivated either way. -/
theorem C6_builder_release (b : PlanetBuilder) (bs : List Body) (m : ℝ)
    (s d : Vec3) :
    (releaseGesture b bs m).1 =
      (if Vec3.length (Vec3.sub b.endPos b.startPos) > 2 then
        bs ++ [builtBody b.startPos (Vec3.sub b.endPos b.startPos) m]
      else bs) ∧
    (releaseGesture b bs m).1.length =
      (if Vec3.length (Vec3.sub b.endPos b.startPos) > 2 then bs.length + 1
      else bs.length) ∧
    (releaseGesture b bs m).2.active = false ∧
    (builtBody s d m).position = s ∧
    (builtBody s d m).velocity = d.scale 5 ∧
    (builtBody s d m).mass = m ∧
    (builtBody s d m).radius = max 1 (Real.sqrt m / 4) ∧
    (builtBody s d m).isFixed = false := by
  refine ⟨rfl, ?_, rfl, rfl, rfl, rfl, builtBody_radius s d m, rfl⟩
  show (if Vec3.length (Vec3.sub b.endPos b.startPos) > 2 then
      bs ++ [builtBody b.startPos (Vec3.sub b.endPos b.startPos) m]
    else bs).length = _
  by_cases h : Vec3.length (Vec3.sub b.endPos b.startPos) > 2
  · rw [if_pos h, if_pos h, List.length_append, List.length_singleton]
  · rw [if_neg h, if_neg h]

def c7builder : PlanetBuilder := ⟨true, ⟨0, 0, 0⟩, ⟨3, 0, 0⟩⟩

/-- C7 counterexample: a builder body of mass exactly 1000 gets the light
color (the code tests `mass > 1000`, not `mass ≥ 1000`). -/
theorem C7_boundary_mass_light :
    (1000:ℝ) ≥ 1000 ∧
    (releaseGesture c7builder [] 1000).1 = [builtBody ⟨0, 0, 0⟩ ⟨3, 0, 0⟩ 1000] ∧
    (builtBody ⟨0, 0, 0⟩ ⟨3, 0, 0⟩ 1000).color = BodyColor.white ∧
    BodyColor.white ≠ BodyColor.red := by
  refine ⟨le_refl _, releaseGesture_three 1000, ?_, by decide⟩
  show (if (1000:ℝ) > 1000 then BodyColor.red else BodyColor.white) = BodyColor.white
  rw [if_neg (by norm_num)]

/-- C7 as amended: every body a release appends is colored by the strict
threshold — heavy above mass 1000, light at or below it. -/
theorem C7_strict_threshold (b : PlanetBuilder) (bs : List Body) (m : ℝ) :
    ((releaseGesture b bs m).1.drop bs.length).Forall
      (fun bd => bd.color = if m > 1000 then BodyColor.red else BodyColor.white) := by
  show ((if Vec3.length (Vec3.sub b.endPos b.startPos) > 2 then
      bs ++ [builtBody b.startPos (Vec3.sub b.endPos b.startPos) m]
    else bs).drop bs.length).Forall _
  by_cases h : Vec3.length (Vec3.sub b.endPos b.startPos) > 2
  · rw [if_pos h, List.drop_left]
    exact rfl
  · rw [if_neg h, List.drop_length]
    trivial

def c8b0 : PlanetBuilder := ⟨false, ⟨7, 0, 7⟩, ⟨9, 0, 9⟩⟩

/-- C8: the plane projection returns the zero vector for a horizontal or
backward ray, but the builder does not refuse it — pressing on such a frame
starts a gesture at the zero point and a subsequent drag and release appends a
body positioned at the zero vector. -/
theorem C8_zero_point_gesture_accepted :
    GetMouseOnPlane ⟨0, 5, 0⟩ ⟨1, 0, 0⟩ = ⟨0, 0, 0⟩ ∧
    GetMouseOnPlane ⟨0, 5, 0⟩ ⟨0, 1, 0⟩ = ⟨0, 0, 0⟩ ∧
    (pressGesture c8b0 (GetMouseOnPlane ⟨0, 5, 0⟩ ⟨1, 0, 0⟩)).active = true ∧
    (pressGesture c8b0 (GetMouseOnPlane ⟨0, 5, 0⟩ ⟨1, 0, 0⟩)).startPos = ⟨0, 0, 0⟩ ∧
    (releaseGesture
        (dragGesture (pressGesture c8b0 (GetMouseOnPlane ⟨0, 5, 0⟩ ⟨1, 0, 0⟩)) ⟨3, 0, 0⟩)
        [] 200).1 =
      [builtBody ⟨0, 0, 0⟩ ⟨3, 0, 0⟩ 200] ∧
    (builtBody ⟨0, 0, 0⟩ ⟨3, 0, 0⟩ 200).position = ⟨0, 0, 0⟩ := by
  have h1 : GetMouseOnPlane ⟨0, 5, 0⟩ ⟨1, 0, 0⟩ = (⟨0, 0, 0⟩ : Vec3) := by
    unfold GetMouseOnPlane
    rw [if_pos]
    show |(0:ℝ)| < 0.001
    norm_num
  have h2 : GetMouseOnPlane ⟨0, 5, 0⟩ ⟨0, 1, 0⟩ = (⟨0, 0, 0⟩ : Vec3) := by
    unfold GetMouseOnPlane
    rw [if_neg (by show ¬(|(1:ℝ)| < 0.001); norm_num)]
    dsimp only
    rw [if_pos]
    show -(5:ℝ) / 1 < 0
    norm_num
  have h3 : dragGesture (pressGesture c8b0 (GetMouseOnPlane ⟨0, 5, 0⟩ ⟨1, 0, 0⟩)) ⟨3, 0, 0⟩ =
      (⟨true, ⟨0, 0, 0⟩, ⟨3, 0, 0⟩⟩ : PlanetBuilder) := by
    rw [h1]
    rfl
  refine ⟨h1, h2, by rw [h1]; rfl, by rw [h1]; rfl, ?_, rfl⟩
  rw [h3]
  exact releaseGesture_three 200

/-- C9 counterexample: on a 2000-pixel-wide screen, holding the slider at
x = 1980 (inside the screen) sets the mass to 2010, above the claimed
maximum 2000. -/
theorem C9_exceeds_2000 :
    sliderUpdate 2000 1980 30 true 200 = 2010 ∧
    (2000:ℝ) < 2010 ∧ (1980:ℝ) ≤ 2000 := by
  refine ⟨?_, by norm_num, by norm_num⟩
  unfold sliderUpdate
  rw [if_pos ⟨rfl, by norm_num, by norm_num⟩]
  norm_num

/-- C9 as amended: while the slider is held on the strip, the updated mass is
at least 10, and it is bounded by `10 + (screenW−120)/(screenW−140) * 2000`
(which exceeds 2000 whenever the pointer can reach past 99.5% of the track);
the claimed upper bound 2000 does not hold. -/
theorem C9_lower_and_screen_bound (screenW mouseX mouseY m : ℝ)
    (h0 : mouseY < 60) (h1 : 120 < mouseX) (h2 : mouseX ≤ screenW)
    (h3 : 140 < screenW) :
    10 ≤ sliderUpdate screenW mouseX mouseY true m ∧
    sliderUpdate screenW mouseX mouseY true m ≤
      10 + (screenW - 120) / (screenW - 140) * 2000 := by
  unfold sliderUpdate
  rw [if_pos ⟨rfl, h0, h1⟩]
  have hden : (0:ℝ) < screenW - 140 := by linarith
  constructor
  · have hpos : 0 ≤ (mouseX - 120) / (screenW - 140) * 2000 := by
      apply mul_nonneg _ (by norm_num)
      apply div_nonneg (by linarith) (le_of_lt hden)
    linarith
  · have hdiv : (mouseX - 120) / (screenW - 140) ≤ (screenW - 120) / (screenW - 140) :=
      (div_le_div_iff_of_pos_right hden).mpr (by linarith)
    have := mul_le_mul_of_nonneg_right hdiv (by norm_num : (0:ℝ) ≤ 2000)
    linarith

/-- Witness for C9's amended bounds at the counterexample's concrete input. -/
theorem C9_witness :
    10 ≤ sliderUpdate 2000 1980 30 true 200 ∧
    sliderUpdate 2000 1980 30 true 200 ≤ 10 + (2000 - 120) / (2000 - 140) * 2000 :=
  C9_lower_and_screen_bound 2000 1980 30 200 (by norm_num) (by norm_num)
    (by norm_num) (by norm_num)

/-- C10: a substep with the clamp line and a substep without it produce the
same list — the clamped `dist` is dead, the magnitude divides the unclamped
`distSq` and the direction normalizes `diff` directly. -/
theorem C10_clamp_is_dead_code (bs : List Body) (dt : ℝ) :
    substep bs dt = substepNoClamp bs dt := by
  unfold substep substepNoClamp
  have h : pairForce = pairForceNoClamp := funext fun bi => funext fun bj => rfl
  rw [h]

end Gravity
